import Mathlib

/-!
Verification of the PuTTY 256-colour matching core (`colour_conv.c`, `evil_colour.c`).

The definitions below are a shallow embedding of the C source:
* `PuTTY_256` — the O(1) analytic matcher (`colour_conv.c`, lines 4-40);
* `XTerm_256` — the exhaustive Euclidean matcher (`colour_conv.c`, lines 42-73);
* `sRGB_to_xyz`, `xyz_to_lab`, `deltaE2000`, `rgbCIEDE2000`, `choose_XTterm256` —
  the colourimetric pipeline and the perceptual matcher (`evil_colour.c`).

C `int` arithmetic is modelled with `Int`, using `Int.tdiv` (truncation toward
zero) wherever the C source divides, and C `double` arithmetic with `ℝ`.
-/

/-- Component value of a cube coordinate: `n ? n * 40 + 55 : 0`
(`colour_conv.c` lines 54-56). -/
def cubeComp (n : ℕ) : ℕ := if n ≠ 0 then n * 40 + 55 else 0

/-- RGB triple of palette entry `c ∈ [16,255]`: for `c < 232` decode cube
coordinates `i / 36, (i / 6) % 6, i % 6` of `i = c - 16` and apply `cubeComp`;
otherwise the grayscale ramp `(i - 216) * 10 + 8` on all three channels
(`colour_conv.c` lines 48-60). -/
def paletteEntryRgb (c : ℕ) : ℤ × ℤ × ℤ :=
  let i := c - 16
  if c < 232 then
    ((cubeComp (i / 36) : ℤ), (cubeComp ((i / 6) % 6) : ℤ), (cubeComp (i % 6) : ℤ))
  else
    (((i - 216) * 10 + 8 : ℕ), ((i - 216) * 10 + 8 : ℕ), ((i - 216) * 10 + 8 : ℕ))

/-- Squared Euclidean RGB distance accumulated by the loop body
`d = nr-r; this_diff += d*d; ...` (`colour_conv.c` lines 62-64). -/
def dist2 (r g b : ℤ) (c : ℕ) : ℤ :=
  let p := paletteEntryRgb c
  (p.1 - r) * (p.1 - r) + (p.2.1 - g) * (p.2.1 - g) + (p.2.2 - b) * (p.2.2 - b)

/-- The search loop shared by `XTerm_256` and `choose_XTterm256`
(`colour_conv.c` lines 48-70, `evil_colour.c` lines 262-281): iterate the
candidates `s, s+1, ..., s+n-1`, keeping state `(best_diff, nearest_static)`,
replacing the incumbent when `best_diff < 0 || best_diff > this_diff`. -/
def loopAux (f : ℕ → ℤ) (s n : ℕ) (bd : ℤ) (best : ℕ) : ℕ :=
  match n, s with
  | 0, _ => best
  | n+1, s =>
      if bd < 0 ∨ f s < bd then loopAux f (s+1) n (f s) s
      else loopAux f (s+1) n bd best

/-- The exhaustive Euclidean matcher `XTerm_256` (`colour_conv.c` lines 42-73):
loop `c = 16 .. 255` with initial `best_diff = -1`, `nearest_static = 0`. -/
def XTerm_256 (r g b : ℤ) : ℕ := loopAux (dist2 r g b) 16 240 (-1) 0

/-- Cube coordinate of the red channel in the analytic matcher:
`nr = (r-36)/40; if (nr == 0) nr = (r+47)/95;` (`colour_conv.c` line 17).
The green and blue channels use the same formula (lines 18-19). -/
def nrOf (r : ℤ) : ℤ :=
  let n := Int.tdiv (r - 36) 40
  if n = 0 then Int.tdiv (r + 47) 95 else n

/-- Cube index computed by the analytic matcher:
`nearest_static = 16 + nb + ng * 6 + nr * 36` (`colour_conv.c` line 21). -/
def cubeIdx (r g b : ℤ) : ℤ := 16 + nrOf b + nrOf g * 6 + nrOf r * 36

/-- Grey-axis condition of the analytic matcher (`colour_conv.c` line 23):
`(abs(r-g)<20 && abs(g-b)<20 && abs(b-r)<20) || (nr==ng && ng==nb)`. -/
def greyCond (r g b : ℤ) : Prop :=
  (|r - g| < 20 ∧ |g - b| < 20 ∧ |b - r| < 20) ∨ (nrOf r = nrOf g ∧ nrOf g = nrOf b)

instance (r g b : ℤ) : Decidable (greyCond r g b) := by
  unfold greyCond; infer_instance

/-- True channel average `tw = (r+g+b)/3` (`colour_conv.c` line 27). -/
def twOf (r g b : ℤ) : ℤ := Int.tdiv (r + g + b) 3

/-- Grayscale candidate from a channel average:
`nw = 232 + (tw-4)/10; if (nw > 255) nw = 255;` (`colour_conv.c` line 27). -/
def nwOfT (tw : ℤ) : ℤ :=
  let nw := 232 + Int.tdiv (tw - 4) 10
  if nw > 255 then 255 else nw

/-- Grayscale candidate index of the analytic matcher. -/
def nwOf (r g b : ℤ) : ℤ := nwOfT (twOf r g b)

/-- Cube brightness proxy of the analytic matcher, with the source's three
sequential overwrites of `tc` followed by `tc /= 3`
(`colour_conv.c` lines 29-32). -/
def tcOf (r g b : ℤ) : ℤ :=
  let tc := if nrOf r ≠ 0 then nrOf r * 40 + 55 else 0
  let tc := if nrOf g ≠ 0 then nrOf g * 40 + 55 else 0
  let tc := if nrOf b ≠ 0 then nrOf b * 40 + 55 else 0
  Int.tdiv tc 3

/-- Grayscale brightness proxy `tg = (nw-232) * 10 + 8`
(`colour_conv.c` line 33). -/
def tgOf (r g b : ℤ) : ℤ := (nwOf r g b - 232) * 10 + 8

/-- The analytic matcher `PuTTY_256` (`colour_conv.c` lines 4-40). -/
def PuTTY_256 (r g b : ℤ) : ℤ :=
  let nearest := cubeIdx r g b
  if greyCond r g b then
    if (tcOf r g b - twOf r g b) * (tcOf r g b - twOf r g b) ≥
       (tgOf r g b - twOf r g b) * (tgOf r g b - twOf r g b)
    then nwOf r g b
    else nearest
  else nearest

/-- Cube index encoding `16 + nb + ng*6 + nr*36` (`colour_conv.c` line 21,
spec §3 invariant). -/
def cubeEncode (nr ng nb : ℕ) : ℕ := 16 + nb + ng * 6 + nr * 36

/-- Cube coordinate decoding `((c-16)/36, ((c-16)/6) % 6, (c-16) % 6)`
(`colour_conv.c` line 53). -/
def cubeDecode (c : ℕ) : ℕ × ℕ × ℕ :=
  ((c - 16) / 36, ((c - 16) / 6) % 6, (c - 16) % 6)

/-! ### The floating-point pipeline of `evil_colour.c`, modelled over `ℝ` -/

/-- C `roundf`: round half away from zero. -/
noncomputable def croundf (x : ℝ) : ℤ := if 0 ≤ x then ⌊x + 1 / 2⌋ else -⌊-x + 1 / 2⌋

/-- The 4-decimal-place rounding `roundf(X * 10000) / 10000`
(`evil_colour.c` lines 65-67). -/
noncomputable def rnd4 (x : ℝ) : ℝ := (croundf (x * 10000) : ℝ) / 10000

/-- C cast from `double` to `int`: truncation toward zero. -/
noncomputable def ctrunc (x : ℝ) : ℤ := if 0 ≤ x then ⌊x⌋ else ⌈x⌉

/-- C `atan2(y, x)`. -/
noncomputable def atan2 (y x : ℝ) : ℝ :=
  if 0 < x then Real.arctan (y / x)
  else if x < 0 then
    (if 0 ≤ y then Real.arctan (y / x) + Real.pi else Real.arctan (y / x) - Real.pi)
  else if 0 < y then Real.pi / 2
  else if y < 0 then -(Real.pi / 2)
  else 0

/-- The literal `#define pi 3.141592653589793238462643383279`
(`evil_colour.c` line 109). -/
noncomputable def cpi : ℝ := 3.141592653589793238462643383279

/-- Source: `sRGB_to_xyz` (`evil_colour.c` lines 20-75): normalize, gamma-decode,
scale to 100, apply the D65 matrix, round each output to 4 decimal places. -/
noncomputable def sRGB_to_xyz (cR cG cB : ℤ) : ℝ × ℝ × ℝ :=
  let R := (cR : ℝ) / 255
  let G := (cG : ℝ) / 255
  let B := (cB : ℝ) / 255
  let R := if R > 0.04045 then ((R + 0.055) / 1.055) ^ (2.4 : ℝ) else R / 12.92
  let G := if G > 0.04045 then ((G + 0.055) / 1.055) ^ (2.4 : ℝ) else G / 12.92
  let B := if B > 0.04045 then ((B + 0.055) / 1.055) ^ (2.4 : ℝ) else B / 12.92
  let R := R * 100
  let G := G * 100
  let B := B * 100
  let X := R * 0.4124564 + G * 0.3575761 + B * 0.1804375
  let Y := R * 0.2126729 + G * 0.7151522 + B * 0.0721750
  let Z := R * 0.0193339 + G * 0.1191920 + B * 0.9503041
  (rnd4 X, rnd4 Y, rnd4 Z)

/-- Source: `xyz_to_lab` (`evil_colour.c` lines 80-107). -/
noncomputable def xyz_to_lab (c : ℝ × ℝ × ℝ) : ℝ × ℝ × ℝ :=
  let Y := c.2.1 / 100
  let Z := c.2.2 / 108.883
  let X := c.1 / 95.047
  let X := if X > 0.008856 then X ^ ((1 : ℝ) / 3) else 7.787 * X + 16 / 116
  let Y := if Y > 0.008856 then Y ^ ((1 : ℝ) / 3) else 7.787 * Y + 16 / 116
  let Z := if Z > 0.008856 then Z ^ ((1 : ℝ) / 3) else 7.787 * Z + 16 / 116
  (116 * Y - 16, 500 * (X - Y), 200 * (Y - Z))

/-! Intermediate quantities of `deltaE2000` (`evil_colour.c` lines 123-208),
one definition per source line, in source order.  Arguments are the Lab
channels `astd bstd asample bsample` (and `Lstd Lsample` where needed). -/

/-- Source: `Cabstd = sqrt(astd*astd + bstd*bstd)` (line 138). -/
noncomputable def Cabstd (a1 b1 : ℝ) : ℝ := Real.sqrt (a1 * a1 + b1 * b1)

/-- Source: `Cabsample = sqrt(asample*asample + bsample*bsample)` (line 139). -/
noncomputable def Cabsample (a2 b2 : ℝ) : ℝ := Real.sqrt (a2 * a2 + b2 * b2)

/-- Source: `Cabarithmean = (Cabstd + Cabsample)/2` (line 141). -/
noncomputable def Cabarithmean (a1 b1 a2 b2 : ℝ) : ℝ :=
  (Cabstd a1 b1 + Cabsample a2 b2) / 2

/-- Source: `G = 0.5*(1 - sqrt(mean^7/(mean^7 + 25^7)))` (line 143). -/
noncomputable def Gfac (a1 b1 a2 b2 : ℝ) : ℝ :=
  0.5 * (1 - Real.sqrt ((Cabarithmean a1 b1 a2 b2) ^ (7 : ℝ) /
    ((Cabarithmean a1 b1 a2 b2) ^ (7 : ℝ) + (25 : ℝ) ^ (7 : ℝ))))

/-- Source: `apstd = (1+G)*astd` (line 145). -/
noncomputable def apstd (a1 b1 a2 b2 : ℝ) : ℝ := (1 + Gfac a1 b1 a2 b2) * a1

/-- Source: `apsample = (1+G)*asample` (line 146). -/
noncomputable def apsample (a1 b1 a2 b2 : ℝ) : ℝ := (1 + Gfac a1 b1 a2 b2) * a2

/-- Source: `Cpsample = sqrt(apsample*apsample + bsample*bsample)` (line 147). -/
noncomputable def Cpsample (a1 b1 a2 b2 : ℝ) : ℝ :=
  Real.sqrt (apsample a1 b1 a2 b2 * apsample a1 b1 a2 b2 + b2 * b2)

/-- Source: `Cpstd = sqrt(apstd*apstd + bstd*bstd)` (line 149). -/
noncomputable def Cpstd (a1 b1 a2 b2 : ℝ) : ℝ :=
  Real.sqrt (apstd a1 b1 a2 b2 * apstd a1 b1 a2 b2 + b1 * b1)

/-- Source: `Cpprod = Cpsample*Cpstd` (line 151). -/
noncomputable def Cpprod (a1 b1 a2 b2 : ℝ) : ℝ :=
  Cpsample a1 b1 a2 b2 * Cpstd a1 b1 a2 b2

/-- Source: `hpstd = atan2(bstd, apstd)`, rolled over into `[0, 2π)` when negative
(lines 155-156).  Note the source applies no achromatic zero-check here. -/
noncomputable def hpstd (a1 b1 a2 b2 : ℝ) : ℝ :=
  let h := atan2 b1 (apstd a1 b1 a2 b2)
  if h < 0 then h + 2 * cpi else h

/-- Source: `hpsample = atan2(bsample, apsample)`, rolled over when negative, then
forced to 0 when `fabs(apsample)+fabs(bsample) == 0` (lines 158-160). -/
noncomputable def hpsample (a1 b1 a2 b2 : ℝ) : ℝ :=
  let h := atan2 b2 (apsample a1 b1 a2 b2)
  let h := if h < 0 then h + 2 * cpi else h
  if |apsample a1 b1 a2 b2| + |b2| = 0 then 0 else h

/-- Source: `dL = Lsample - Lstd` (line 162). -/
noncomputable def dLv (L1 L2 : ℝ) : ℝ := L2 - L1

/-- Source: `dC = Cpsample - Cpstd` (line 163). -/
noncomputable def dCv (a1 b1 a2 b2 : ℝ) : ℝ :=
  Cpsample a1 b1 a2 b2 - Cpstd a1 b1 a2 b2

/-- Source: `dhp`: hue difference wrapped into `(-π, π]`, zeroed when `Cpprod = 0`
(lines 166-170). -/
noncomputable def dhp (a1 b1 a2 b2 : ℝ) : ℝ :=
  let d := hpsample a1 b1 a2 b2 - hpstd a1 b1 a2 b2
  let d := if d > cpi then d - 2 * cpi else d
  let d := if d < -cpi then d + 2 * cpi else d
  if Cpprod a1 b1 a2 b2 = 0 then 0 else d

/-- Source: `dH = 2*sqrt(Cpprod)*sin(dhp/2)` (line 176). -/
noncomputable def dHv (a1 b1 a2 b2 : ℝ) : ℝ :=
  2 * Real.sqrt (Cpprod a1 b1 a2 b2) * Real.sin (dhp a1 b1 a2 b2 / 2)

/-- Source: `Lp = (Lsample + Lstd)/2` (line 180). -/
noncomputable def Lpv (L1 L2 : ℝ) : ℝ := (L2 + L1) / 2

/-- Source: `Cp = (Cpstd + Cpsample)/2` (line 181). -/
noncomputable def Cpv (a1 b1 a2 b2 : ℝ) : ℝ :=
  (Cpstd a1 b1 a2 b2 + Cpsample a1 b1 a2 b2) / 2

/-- Mean hue `hp` with the `> π` correction, negative rollover and the
`Cpprod = 0` override (lines 187-195). -/
noncomputable def hpv (a1 b1 a2 b2 : ℝ) : ℝ :=
  let h := (hpstd a1 b1 a2 b2 + hpsample a1 b1 a2 b2) / 2
  let h := if |hpstd a1 b1 a2 b2 - hpsample a1 b1 a2 b2| > cpi then h - cpi else h
  let h := if h < 0 then h + 2 * cpi else h
  if Cpprod a1 b1 a2 b2 = 0 then hpsample a1 b1 a2 b2 + hpstd a1 b1 a2 b2 else h

/-- Source: `Lpm502 = (Lp-50)*(Lp-50)` (line 197). -/
noncomputable def Lpm502 (L1 L2 : ℝ) : ℝ := (Lpv L1 L2 - 50) * (Lpv L1 L2 - 50)

/-- Source: `Sl = 1 + 0.015*Lpm502/sqrt(20 + Lpm502)` (line 198). -/
noncomputable def Slv (L1 L2 : ℝ) : ℝ :=
  1 + 0.015 * Lpm502 L1 L2 / Real.sqrt (20 + Lpm502 L1 L2)

/-- Source: `Sc = 1 + 0.045*Cp` (line 199). -/
noncomputable def Scv (a1 b1 a2 b2 : ℝ) : ℝ := 1 + 0.045 * Cpv a1 b1 a2 b2

/-- Source: `T` (line 200). -/
noncomputable def Tv (a1 b1 a2 b2 : ℝ) : ℝ :=
  1 - 0.17 * Real.cos (hpv a1 b1 a2 b2 - cpi / 6)
    + 0.24 * Real.cos (2 * hpv a1 b1 a2 b2)
    + 0.32 * Real.cos (3 * hpv a1 b1 a2 b2 + cpi / 30)
    - 0.20 * Real.cos (4 * hpv a1 b1 a2 b2 - 63 * cpi / 180)

/-- Source: `Sh = 1 + 0.015*Cp*T` (line 201). -/
noncomputable def Shv (a1 b1 a2 b2 : ℝ) : ℝ :=
  1 + 0.015 * Cpv a1 b1 a2 b2 * Tv a1 b1 a2 b2

/-- Source: `delthetarad = (30π/180)*exp(-((180/π*hp - 275)/25)^2)` (line 202). -/
noncomputable def delthetarad (a1 b1 a2 b2 : ℝ) : ℝ :=
  (30 * cpi / 180) * Real.exp (-(((180 / cpi * hpv a1 b1 a2 b2 - 275) / 25) ^ (2 : ℝ)))

/-- Source: `Rc = 2*sqrt(Cp^7/(Cp^7 + 25^7))` (line 203). -/
noncomputable def Rcv (a1 b1 a2 b2 : ℝ) : ℝ :=
  2 * Real.sqrt ((Cpv a1 b1 a2 b2) ^ (7 : ℝ) /
    ((Cpv a1 b1 a2 b2) ^ (7 : ℝ) + (25 : ℝ) ^ (7 : ℝ)))

/-- Source: `RT = -sin(2*delthetarad)*Rc` (line 204). -/
noncomputable def RTv (a1 b1 a2 b2 : ℝ) : ℝ :=
  -Real.sin (2 * delthetarad a1 b1 a2 b2) * Rcv a1 b1 a2 b2

/-- Argument of the final square root of `deltaE2000` (line 207):
`(dL/Sl)^2 + (dC/Sc)^2 + (dH/Sh)^2 + RT*(dC/Sc)*(dH/Sh)`. -/
noncomputable def deltaRad (L1 a1 b1 L2 a2 b2 : ℝ) : ℝ :=
  (dLv L1 L2 / Slv L1 L2) ^ (2 : ℝ) + (dCv a1 b1 a2 b2 / Scv a1 b1 a2 b2) ^ (2 : ℝ)
    + (dHv a1 b1 a2 b2 / Shv a1 b1 a2 b2) ^ (2 : ℝ)
    + RTv a1 b1 a2 b2 * (dCv a1 b1 a2 b2 / Scv a1 b1 a2 b2)
        * (dHv a1 b1 a2 b2 / Shv a1 b1 a2 b2)

/-- Source: `deltaE2000` (`evil_colour.c` lines 123-208): the CIEDE2000 difference of
two Lab colours `(L, a, b)`. -/
noncomputable def deltaE2000 (lab1 lab2 : ℝ × ℝ × ℝ) : ℝ :=
  Real.sqrt (deltaRad lab1.1 lab1.2.1 lab1.2.2 lab2.1 lab2.2.1 lab2.2.2)

/-- Source: `rgbCIEDE2000` (`evil_colour.c` lines 210-251): CIEDE2000 distance of two
RGB triples through `sRGB_to_xyz` and `xyz_to_lab`. -/
noncomputable def rgbCIEDE2000 (r1 g1 b1 r2 g2 b2 : ℤ) : ℝ :=
  deltaE2000 (xyz_to_lab (sRGB_to_xyz r1 g1 b1)) (xyz_to_lab (sRGB_to_xyz r2 g2 b2))

/-- The integer comparison key of the perceptual matcher
(`evil_colour.c` line 275): `this_diff = 10000 * rgbCIEDE2000(r,g,b, nr,ng,nb)`
stored into a C `int`, truncating toward zero. -/
noncomputable def perceptualDiff (r g b : ℤ) (c : ℕ) : ℤ :=
  let p := paletteEntryRgb c
  ctrunc (10000 * rgbCIEDE2000 r g b p.1 p.2.1 p.2.2)

/-- The perceptual matcher `choose_XTterm256` (`evil_colour.c` lines 253-284):
the same search loop as `XTerm_256`, driven by `perceptualDiff`. -/
noncomputable def choose_XTterm256 (r g b : ℤ) : ℕ :=
  loopAux (perceptualDiff r g b) 16 240 (-1) 0

/-! ### The search loop returns the first minimizer -/

/-- The squared Euclidean RGB distance is nonnegative. -/
lemma dist2_nonneg (r g b : ℤ) (c : ℕ) : 0 ≤ dist2 r g b c := by
  unfold dist2
  exact add_nonneg (add_nonneg (mul_self_nonneg _) (mul_self_nonneg _)) (mul_self_nonneg _)

/-- Invariant of the search loop, seeded with incumbent `b` (whose key `f b`
is the current `best_diff`) and remaining candidates `s, ..., s+n-1`: the
result is the incumbent or a candidate, its key is minimal among incumbent
and candidates, and every candidate strictly below the result (and the
incumbent, when replaced) has a strictly larger key. -/
lemma loopAux_spec (f : ℕ → ℤ) (hf : ∀ c, 0 ≤ f c) :
    ∀ n s b, b < s →
      ((loopAux f s n (f b) b = b ∨
         (s ≤ loopAux f s n (f b) b ∧ loopAux f s n (f b) b < s + n)) ∧
       f (loopAux f s n (f b) b) ≤ f b ∧
       (∀ c, s ≤ c → c < s + n → f (loopAux f s n (f b) b) ≤ f c) ∧
       (∀ c, s ≤ c → c < s + n → c < loopAux f s n (f b) b →
          f (loopAux f s n (f b) b) < f c) ∧
       (loopAux f s n (f b) b ≠ b → f (loopAux f s n (f b) b) < f b)) := by
  intro n
  induction n with
  | zero =>
    intro s b hb
    refine ⟨Or.inl rfl, le_refl _, ?_, ?_, ?_⟩
    · intro c hc1 hc2; omega
    · intro c hc1 hc2; omega
    · intro hne; exact absurd rfl hne
  | succ n ih =>
    intro s b hb
    have hstep : loopAux f s (n + 1) (f b) b =
        if f b < 0 ∨ f s < f b then loopAux f (s + 1) n (f s) s
        else loopAux f (s + 1) n (f b) b := by
      simp only [loopAux]
    by_cases h : f s < f b
    · rw [hstep, if_pos (Or.inr h)]
      obtain ⟨hpos, hleb, hall, hstr, hne⟩ := ih (s + 1) s (Nat.lt_succ_self s)
      refine ⟨?_, ?_, ?_, ?_, ?_⟩
      · rcases hpos with h1 | h1
        · right; omega
        · right; omega
      · exact le_of_lt (lt_of_le_of_lt hleb h)
      · intro c hc1 hc2
        rcases Nat.eq_or_lt_of_le hc1 with h3 | h3
        · rw [← h3]; exact hleb
        · exact hall c h3 (by omega)
      · intro c hc1 hc2 hcm
        rcases Nat.eq_or_lt_of_le hc1 with h3 | h3
        · rw [← h3]
          refine hne ?_
          omega
        · exact hstr c h3 (by omega) hcm
      · intro _; exact lt_of_le_of_lt hleb h
    · have hcond : ¬(f b < 0 ∨ f s < f b) := by
        rintro (h1 | h2)
        · exact absurd h1 (not_lt.mpr (hf b))
        · exact h h2
      rw [hstep, if_neg hcond]
      obtain ⟨hpos, hleb, hall, hstr, hne⟩ := ih (s + 1) b (by omega)
      refine ⟨?_, hleb, ?_, ?_, hne⟩
      · rcases hpos with h1 | h1
        · exact Or.inl h1
        · right; omega
      · intro c hc1 hc2
        rcases Nat.eq_or_lt_of_le hc1 with h3 | h3
        · rw [← h3]; exact le_trans hleb (not_lt.mp h)
        · exact hall c h3 (by omega)
      · intro c hc1 hc2 hcm
        rcases Nat.eq_or_lt_of_le hc1 with h3 | h3
        · rw [← h3]
          have hmb : loopAux f (s + 1) n (f b) b ≠ b := by omega
          exact lt_of_lt_of_le (hne hmb) (not_lt.mp h)
        · exact hstr c h3 (by omega) hcm

/-- Characterization of the full search `loopAux f 16 240 (-1) 0` for a
nonnegative key `f`: the result lies in `[16, 255]`, its key is minimal over
the whole range, and every smaller index in the range has a strictly larger
key — i.e. the loop returns the first minimizer of `f` on `[16, 255]`. -/
lemma loop_char (f : ℕ → ℤ) (hf : ∀ c, 0 ≤ f c) :
    (16 ≤ loopAux f 16 240 (-1) 0 ∧ loopAux f 16 240 (-1) 0 ≤ 255) ∧
    (∀ c, 16 ≤ c → c ≤ 255 → f (loopAux f 16 240 (-1) 0) ≤ f c) ∧
    (∀ c, 16 ≤ c → c ≤ 255 → c < loopAux f 16 240 (-1) 0 →
       f (loopAux f 16 240 (-1) 0) < f c) := by
  have hstep : loopAux f 16 240 (-1) 0 = loopAux f 17 239 (f 16) 16 := rfl
  obtain ⟨hpos, hleb, hall, hstr, hne⟩ := loopAux_spec f hf 239 17 16 (by omega)
  rw [hstep]
  refine ⟨⟨?_, ?_⟩, ?_, ?_⟩
  · rcases hpos with h | h <;> omega
  · rcases hpos with h | h <;> omega
  · intro c h1 h2
    rcases Nat.eq_or_lt_of_le h1 with h3 | h3
    · rw [← h3]; exact hleb
    · exact hall c h3 (by omega)
  · intro c h1 h2 h4
    rcases Nat.eq_or_lt_of_le h1 with h3 | h3
    · rw [← h3]
      refine hne ?_
      omega
    · exact hstr c h3 (by omega) h4

/-- C1: for channels in `[0,255]`, `XTerm_256` returns the brute-force argmin
of squared RGB distance over palette entries 16..255, ties broken in favour of
the lowest index: the result is in `[16,255]`, its distance is minimal over
the range, and every lower index has strictly larger distance. -/
theorem XTerm_256_first_argmin (r g b : ℤ)
    (hr0 : 0 ≤ r) (hr1 : r ≤ 255) (hg0 : 0 ≤ g) (hg1 : g ≤ 255)
    (hb0 : 0 ≤ b) (hb1 : b ≤ 255) :
    (16 ≤ XTerm_256 r g b ∧ XTerm_256 r g b ≤ 255) ∧
    (∀ c, 16 ≤ c → c ≤ 255 → dist2 r g b (XTerm_256 r g b) ≤ dist2 r g b c) ∧
    (∀ c, 16 ≤ c → c ≤ 255 → c < XTerm_256 r g b →
       dist2 r g b (XTerm_256 r g b) < dist2 r g b c) :=
  loop_char (dist2 r g b) (dist2_nonneg r g b)

/-- Witness for C1 at the concrete input (0,0,0). -/
theorem XTerm_256_first_argmin_witness :
    (16 ≤ XTerm_256 0 0 0 ∧ XTerm_256 0 0 0 ≤ 255) ∧
    (∀ c, 16 ≤ c → c ≤ 255 → dist2 0 0 0 (XTerm_256 0 0 0) ≤ dist2 0 0 0 c) ∧
    (∀ c, 16 ≤ c → c ≤ 255 → c < XTerm_256 0 0 0 →
       dist2 0 0 0 (XTerm_256 0 0 0) < dist2 0 0 0 c) :=
  XTerm_256_first_argmin 0 0 0 (by decide) (by decide) (by decide) (by decide)
    (by decide) (by decide)

/-! ### The cube round-trip (C8) -/

/-- C8: decoding an encoded cube index recovers the cube coordinates, for all
coordinates in `[0,5]`. -/
theorem cube_roundtrip (nr ng nb : ℕ) (h1 : nr ≤ 5) (h2 : ng ≤ 5) (h3 : nb ≤ 5) :
    cubeDecode (cubeEncode nr ng nb) = (nr, ng, nb) := by
  simp only [cubeDecode, cubeEncode, Prod.mk.injEq]
  omega

/-- Witness for C8 at the concrete coordinates (5,4,3). -/
theorem cube_roundtrip_witness : cubeDecode (cubeEncode 5 4 3) = (5, 4, 3) :=
  cube_roundtrip 5 4 3 (by decide) (by decide) (by decide)

/-! ### The grey-axis override of the analytic matcher (C2, C3) -/

/-- C3: the cube brightness accumulator is overwritten once per channel, so
the value compared against the grayscale proxy is `(nb ? nb*40+55 : 0)/3`,
depending only on the blue cube coordinate and independent of `r` and `g`. -/
theorem tc_overwritten (r g b : ℤ) :
    tcOf r g b = Int.tdiv (if nrOf b ≠ 0 then nrOf b * 40 + 55 else 0) 3 ∧
    (∀ x y : ℤ, tcOf r g b = tcOf x y b) :=
  ⟨rfl, fun _ _ => rfl⟩

/-- Counterexample for C2 as stated: at input (4,4,4) the grey branch fires,
the two squared brightness distances tie (both 16), and the matcher returns
the grayscale candidate 232, not the cube index 16. -/
theorem grey_tie_returns_grayscale_cex :
    greyCond 4 4 4 ∧
    (tcOf 4 4 4 - twOf 4 4 4) * (tcOf 4 4 4 - twOf 4 4 4) =
      (tgOf 4 4 4 - twOf 4 4 4) * (tgOf 4 4 4 - twOf 4 4 4) ∧
    PuTTY_256 4 4 4 = 232 ∧ nwOf 4 4 4 = 232 ∧ cubeIdx 4 4 4 = 16 := by
  refine ⟨by decide, by decide, by decide, by decide, by decide⟩

/-- C2 amended: whenever the grey branch fires and the squared brightness
distances tie, the analytic matcher returns the grayscale candidate `nw`
(the comparison is `>=`, so equality selects the grayscale index). -/
theorem grey_tie_returns_grayscale (r g b : ℤ) (hg : greyCond r g b)
    (ht : (tcOf r g b - twOf r g b) * (tcOf r g b - twOf r g b) =
      (tgOf r g b - twOf r g b) * (tgOf r g b - twOf r g b)) :
    PuTTY_256 r g b = nwOf r g b := by
  simp only [PuTTY_256]
  rw [if_pos hg, if_pos (le_of_eq ht.symm)]

/-- Witness for the amended C2 at the concrete input (4,4,4). -/
theorem grey_tie_returns_grayscale_witness : PuTTY_256 4 4 4 = nwOf 4 4 4 :=
  grey_tie_returns_grayscale 4 4 4 (by decide) (by decide)

/-! ### Range of the three matchers (C6, C4) -/

/-- The analytic cube coordinate of an in-range channel lies in `[0,5]`. -/
lemma nrOf_bounds (r : ℤ) (h0 : 0 ≤ r) (h1 : r ≤ 255) :
    0 ≤ nrOf r ∧ nrOf r ≤ 5 := by
  interval_cases r <;> decide

/-- The channel average of in-range channels lies in `[0,255]`. -/
lemma twOf_bounds (r g b : ℤ) (hr0 : 0 ≤ r) (hr1 : r ≤ 255) (hg0 : 0 ≤ g)
    (hg1 : g ≤ 255) (hb0 : 0 ≤ b) (hb1 : b ≤ 255) :
    0 ≤ twOf r g b ∧ twOf r g b ≤ 255 := by
  unfold twOf
  have h : ∀ s : ℤ, 0 ≤ s → s ≤ 765 → 0 ≤ Int.tdiv s 3 ∧ Int.tdiv s 3 ≤ 255 := by
    intro s h0 h1
    interval_cases s <;> decide
  exact h (r + g + b) (by omega) (by omega)

/-- The grayscale candidate built from an in-range average lies in `[232,255]`. -/
lemma nwOfT_bounds (t : ℤ) (h0 : 0 ≤ t) (h1 : t ≤ 255) :
    232 ≤ nwOfT t ∧ nwOfT t ≤ 255 := by
  interval_cases t <;> decide

/-- For in-range channels the analytic matcher returns an index in `[16,255]`. -/
lemma PuTTY_256_range (r g b : ℤ) (hr0 : 0 ≤ r) (hr1 : r ≤ 255) (hg0 : 0 ≤ g)
    (hg1 : g ≤ 255) (hb0 : 0 ≤ b) (hb1 : b ≤ 255) :
    16 ≤ PuTTY_256 r g b ∧ PuTTY_256 r g b ≤ 255 := by
  have hr := nrOf_bounds r hr0 hr1
  have hg := nrOf_bounds g hg0 hg1
  have hb := nrOf_bounds b hb0 hb1
  have hcube : 16 ≤ cubeIdx r g b ∧ cubeIdx r g b ≤ 231 := by
    unfold cubeIdx; omega
  have htw := twOf_bounds r g b hr0 hr1 hg0 hg1 hb0 hb1
  have hnw : 232 ≤ nwOf r g b ∧ nwOf r g b ≤ 255 :=
    nwOfT_bounds (twOf r g b) htw.1 htw.2
  simp only [PuTTY_256]
  split
  · split
    · omega
    · omega
  · omega

/-- The perceptual comparison key is nonnegative: it is the truncation of
`10000` times a square root. -/
lemma perceptualDiff_nonneg (r g b : ℤ) (c : ℕ) : 0 ≤ perceptualDiff r g b c := by
  unfold perceptualDiff
  have h : (0 : ℝ) ≤ 10000 * rgbCIEDE2000 r g b (paletteEntryRgb c).1
      (paletteEntryRgb c).2.1 (paletteEntryRgb c).2.2 := by
    have := Real.sqrt_nonneg (deltaRad
      (xyz_to_lab (sRGB_to_xyz r g b)).1
      (xyz_to_lab (sRGB_to_xyz r g b)).2.1
      (xyz_to_lab (sRGB_to_xyz r g b)).2.2
      (xyz_to_lab (sRGB_to_xyz (paletteEntryRgb c).1 (paletteEntryRgb c).2.1
        (paletteEntryRgb c).2.2)).1
      (xyz_to_lab (sRGB_to_xyz (paletteEntryRgb c).1 (paletteEntryRgb c).2.1
        (paletteEntryRgb c).2.2)).2.1
      (xyz_to_lab (sRGB_to_xyz (paletteEntryRgb c).1 (paletteEntryRgb c).2.1
        (paletteEntryRgb c).2.2)).2.2)
    unfold rgbCIEDE2000 deltaE2000
    positivity
  unfold ctrunc
  rw [if_pos h]
  exact Int.floor_nonneg.mpr h

/-- C6: for channels in `[0,255]` each matcher returns exactly one index in
`[16,255]`; in particular none can return an index in `[0,15]`. -/
theorem matchers_range (r g b : ℤ) (hr0 : 0 ≤ r) (hr1 : r ≤ 255) (hg0 : 0 ≤ g)
    (hg1 : g ≤ 255) (hb0 : 0 ≤ b) (hb1 : b ≤ 255) :
    (16 ≤ PuTTY_256 r g b ∧ PuTTY_256 r g b ≤ 255) ∧
    (16 ≤ XTerm_256 r g b ∧ XTerm_256 r g b ≤ 255) ∧
    (16 ≤ choose_XTterm256 r g b ∧ choose_XTterm256 r g b ≤ 255) :=
  ⟨PuTTY_256_range r g b hr0 hr1 hg0 hg1 hb0 hb1,
   (loop_char (dist2 r g b) (dist2_nonneg r g b)).1,
   (loop_char (perceptualDiff r g b) (perceptualDiff_nonneg r g b)).1⟩

/-- Witness for C6 at the concrete input (0,0,0). -/
theorem matchers_range_witness :
    (16 ≤ PuTTY_256 0 0 0 ∧ PuTTY_256 0 0 0 ≤ 255) ∧
    (16 ≤ XTerm_256 0 0 0 ∧ XTerm_256 0 0 0 ≤ 255) ∧
    (16 ≤ choose_XTterm256 0 0 0 ∧ choose_XTterm256 0 0 0 ≤ 255) :=
  matchers_range 0 0 0 (by decide) (by decide) (by decide) (by decide)
    (by decide) (by decide)

set_option maxRecDepth 8000 in
/-- Counterexample for C4 as stated: the out-of-range input (-1,0,0) is not
rejected; the Euclidean matcher silently computes the ordinary index 16. -/
theorem no_input_validation_cex : XTerm_256 (-1) 0 0 = 16 := by decide

/-- C4 amended: the code performs no input validation at all.  The two search
matchers are total functions returning a normal index in `[16,255]` for every
integer input, in-range or not. -/
theorem no_input_validation (r g b : ℤ) :
    (16 ≤ XTerm_256 r g b ∧ XTerm_256 r g b ≤ 255) ∧
    (16 ≤ choose_XTterm256 r g b ∧ choose_XTterm256 r g b ≤ 255) :=
  ⟨(loop_char (dist2 r g b) (dist2_nonneg r g b)).1,
   (loop_char (perceptualDiff r g b) (perceptualDiff_nonneg r g b)).1⟩

/-! ### The Euclidean matcher fixes every palette entry (C10) -/

/-- The cube component map is injective on coordinates `0..5`. -/
lemma cubeComp_inj_aux : ∀ x y : Fin 6, cubeComp x.val = cubeComp y.val → x = y := by
  decide

/-- No cube component value lies on the grayscale ramp. -/
lemma cubeComp_ne_grey : ∀ x : Fin 6, ∀ y : Fin 24,
    cubeComp x.val ≠ y.val * 10 + 8 := by decide

/-- The 240 palette entries have pairwise-distinct RGB triples. -/
lemma paletteEntryRgb_inj (c1 c2 : ℕ) (h11 : 16 ≤ c1) (h12 : c1 ≤ 255)
    (h21 : 16 ≤ c2) (h22 : c2 ≤ 255)
    (h : paletteEntryRgb c1 = paletteEntryRgb c2) : c1 = c2 := by
  unfold paletteEntryRgb at h
  by_cases hc1 : c1 < 232 <;> by_cases hc2 : c2 < 232 <;>
    simp only [hc1, hc2, if_pos, if_neg, if_true, if_false, Prod.mk.injEq,
      Nat.cast_inj, not_false_iff] at h
  · -- cube vs cube
    obtain ⟨e1, e2, e3⟩ := h
    have hr : (c1 - 16) / 36 = (c2 - 16) / 36 := by
      have := cubeComp_inj_aux ⟨(c1 - 16) / 36, by omega⟩ ⟨(c2 - 16) / 36, by omega⟩
        (by exact_mod_cast e1)
      simpa using congrArg Fin.val this
    have hg : ((c1 - 16) / 6) % 6 = ((c2 - 16) / 6) % 6 := by
      have := cubeComp_inj_aux ⟨((c1 - 16) / 6) % 6, by omega⟩
        ⟨((c2 - 16) / 6) % 6, by omega⟩ (by exact_mod_cast e2)
      simpa using congrArg Fin.val this
    have hb : (c1 - 16) % 6 = (c2 - 16) % 6 := by
      have := cubeComp_inj_aux ⟨(c1 - 16) % 6, by omega⟩ ⟨(c2 - 16) % 6, by omega⟩
        (by exact_mod_cast e3)
      simpa using congrArg Fin.val this
    omega
  · -- cube vs grey: impossible, first components differ
    exfalso
    have e1 : cubeComp ((c1 - 16) / 36) = (c2 - 16 - 216) * 10 + 8 := by
      exact_mod_cast h.1
    exact cubeComp_ne_grey ⟨(c1 - 16) / 36, by omega⟩ ⟨c2 - 16 - 216, by omega⟩ e1
  · -- grey vs cube: symmetric
    exfalso
    have e1 : cubeComp ((c2 - 16) / 36) = (c1 - 16 - 216) * 10 + 8 := by
      exact_mod_cast h.1.symm
    exact cubeComp_ne_grey ⟨(c2 - 16) / 36, by omega⟩ ⟨c1 - 16 - 216, by omega⟩ e1
  · -- grey vs grey
    have e1 : (c1 - 16 - 216) * 10 + 8 = (c2 - 16 - 216) * 10 + 8 := by
      exact_mod_cast h.1
    omega

/-- The distance of a palette entry to itself is zero. -/
lemma dist2_self (c : ℕ) :
    dist2 (paletteEntryRgb c).1 (paletteEntryRgb c).2.1 (paletteEntryRgb c).2.2 c = 0 := by
  simp [dist2]

/-- A zero distance pins down the candidate's RGB triple. -/
lemma dist2_eq_zero (r g b : ℤ) (m : ℕ) (h : dist2 r g b m = 0) :
    paletteEntryRgb m = (r, g, b) := by
  simp only [dist2] at h
  have n1 := mul_self_nonneg ((paletteEntryRgb m).1 - r)
  have n2 := mul_self_nonneg ((paletteEntryRgb m).2.1 - g)
  have n3 := mul_self_nonneg ((paletteEntryRgb m).2.2 - b)
  have z1 : ((paletteEntryRgb m).1 - r) * ((paletteEntryRgb m).1 - r) = 0 := by omega
  have z2 : ((paletteEntryRgb m).2.1 - g) * ((paletteEntryRgb m).2.1 - g) = 0 := by omega
  have z3 : ((paletteEntryRgb m).2.2 - b) * ((paletteEntryRgb m).2.2 - b) = 0 := by omega
  have e1 : (paletteEntryRgb m).1 = r := by
    have := mul_self_eq_zero.mp z1; omega
  have e2 : (paletteEntryRgb m).2.1 = g := by
    have := mul_self_eq_zero.mp z2; omega
  have e3 : (paletteEntryRgb m).2.2 = b := by
    have := mul_self_eq_zero.mp z3; omega
  calc paletteEntryRgb m
      = ((paletteEntryRgb m).1, (paletteEntryRgb m).2.1, (paletteEntryRgb m).2.2) := rfl
    _ = (r, g, b) := by rw [e1, e2, e3]

/-- C10: for every palette index `c` in `[16,255]`, the Euclidean matcher
applied to that entry's RGB triple returns exactly `c`. -/
theorem XTerm_256_palette_fixed (c : ℕ) (h1 : 16 ≤ c) (h2 : c ≤ 255) :
    XTerm_256 (paletteEntryRgb c).1 (paletteEntryRgb c).2.1
      (paletteEntryRgb c).2.2 = c := by
  obtain ⟨⟨hm1, hm2⟩, hmin, _⟩ :=
    loop_char (dist2 (paletteEntryRgb c).1 (paletteEntryRgb c).2.1 (paletteEntryRgb c).2.2)
      (dist2_nonneg (paletteEntryRgb c).1 (paletteEntryRgb c).2.1 (paletteEntryRgb c).2.2)
  have hle := hmin c h1 h2
  rw [dist2_self c] at hle
  have hzero :
      dist2 (paletteEntryRgb c).1 (paletteEntryRgb c).2.1 (paletteEntryRgb c).2.2
        (loopAux (dist2 (paletteEntryRgb c).1 (paletteEntryRgb c).2.1
          (paletteEntryRgb c).2.2) 16 240 (-1) 0) = 0 :=
    le_antisymm hle (dist2_nonneg _ _ _ _)
  have hpal := dist2_eq_zero _ _ _ _ hzero
  exact paletteEntryRgb_inj _ c hm1 hm2 h1 h2 hpal

/-- Witness for C10 at the concrete palette index 196 (pure red). -/
theorem XTerm_256_palette_fixed_witness :
    XTerm_256 (paletteEntryRgb 196).1 (paletteEntryRgb 196).2.1
      (paletteEntryRgb 196).2.2 = 196 :=
  XTerm_256_palette_fixed 196 (by decide) (by decide)

/-! ### The reference white point (C5) -/

/-- If `x * 10000` lies within `[n, n + 1/2)` for a nonnegative integer `n`,
the 4-decimal rounding of `x` is exactly `n / 10000`. -/
lemma rnd4_near (x : ℝ) (n : ℤ) (h0 : 0 ≤ n) (hlo : (n : ℝ) ≤ x * 10000)
    (hhi : x * 10000 < (n : ℝ) + 1 / 2) : rnd4 x = (n : ℝ) / 10000 := by
  unfold rnd4 croundf
  rw [if_pos (le_trans (by exact_mod_cast h0) hlo)]
  have hfl : ⌊x * 10000 + 1 / 2⌋ = n := by
    rw [Int.floor_eq_iff]
    constructor
    · linarith
    · push_cast
      linarith
  rw [hfl]

/-- C5: `sRGB_to_xyz (255,255,255)` is exactly the D65 reference white
`(95.047, 100.000, 108.883)` after the 4-decimal rounding. -/
theorem white_point_exact :
    sRGB_to_xyz 255 255 255 = ((95.047 : ℝ), (100 : ℝ), (108.883 : ℝ)) := by
  simp only [sRGB_to_xyz]
  norm_num [Real.one_rpow]
  refine ⟨?_, ?_, ?_⟩
  · rw [rnd4_near _ 950470 (by norm_num) (by norm_num) (by norm_num)]
    norm_num
  · rw [rnd4_near _ 1000000 (by norm_num) (by norm_num) (by norm_num)]
    norm_num
  · rw [rnd4_near _ 1088830 (by norm_num) (by norm_num) (by norm_num)]
    norm_num

/-! ### Nonnegativity of the CIEDE2000 radicand (C7) -/

/-- The mean adjusted chroma is nonnegative. -/
lemma Cpv_nonneg (a1 b1 a2 b2 : ℝ) : 0 ≤ Cpv a1 b1 a2 b2 := by
  unfold Cpv Cpstd Cpsample
  positivity

/-- The rotation magnitude `Rc` lies in `[0, 2]`. -/
lemma Rcv_bounds (a1 b1 a2 b2 : ℝ) : 0 ≤ Rcv a1 b1 a2 b2 ∧ Rcv a1 b1 a2 b2 ≤ 2 := by
  constructor
  · unfold Rcv
    positivity
  · unfold Rcv
    have h25 : (0 : ℝ) < (25 : ℝ) ^ (7 : ℝ) := Real.rpow_pos_of_pos (by norm_num) _
    have hC : (0 : ℝ) ≤ (Cpv a1 b1 a2 b2) ^ (7 : ℝ) :=
      Real.rpow_nonneg (Cpv_nonneg a1 b1 a2 b2) _
    have h1 : (0 : ℝ) < (Cpv a1 b1 a2 b2) ^ (7 : ℝ) + (25 : ℝ) ^ (7 : ℝ) := by linarith
    have h2 : (Cpv a1 b1 a2 b2) ^ (7 : ℝ) /
        ((Cpv a1 b1 a2 b2) ^ (7 : ℝ) + (25 : ℝ) ^ (7 : ℝ)) ≤ 1 := by
      rw [div_le_one h1]
      linarith
    have h3 : Real.sqrt ((Cpv a1 b1 a2 b2) ^ (7 : ℝ) /
        ((Cpv a1 b1 a2 b2) ^ (7 : ℝ) + (25 : ℝ) ^ (7 : ℝ))) ≤ 1 := by
      calc Real.sqrt ((Cpv a1 b1 a2 b2) ^ (7 : ℝ) /
              ((Cpv a1 b1 a2 b2) ^ (7 : ℝ) + (25 : ℝ) ^ (7 : ℝ)))
          ≤ Real.sqrt 1 := Real.sqrt_le_sqrt h2
        _ = 1 := Real.sqrt_one
    linarith

/-- The rotation term `RT = -sin(2Δθ)·Rc` has absolute value at most 2. -/
lemma RTv_abs_le (a1 b1 a2 b2 : ℝ) : |RTv a1 b1 a2 b2| ≤ 2 := by
  unfold RTv
  rw [abs_mul, abs_neg]
  have hs : |Real.sin (2 * delthetarad a1 b1 a2 b2)| ≤ 1 :=
    abs_le.mpr ⟨Real.neg_one_le_sin _, Real.sin_le_one _⟩
  obtain ⟨hr0, hr2⟩ := Rcv_bounds a1 b1 a2 b2
  rw [abs_of_nonneg hr0]
  have := mul_le_mul hs hr2 hr0 (by norm_num)
  linarith

/-- C7: for every pair of Lab triples the argument of the final square root of
`deltaE2000` is nonnegative (because `|RT| ≤ 2`), so the square root is
applied within its domain and the returned distance is nonnegative. -/
theorem deltaE2000_nonneg (L1 a1 b1 L2 a2 b2 : ℝ) :
    |RTv a1 b1 a2 b2| ≤ 2 ∧ 0 ≤ deltaRad L1 a1 b1 L2 a2 b2 ∧
    0 ≤ deltaE2000 (L1, a1, b1) (L2, a2, b2) := by
  refine ⟨RTv_abs_le a1 b1 a2 b2, ?_, Real.sqrt_nonneg _⟩
  unfold deltaRad
  rw [Real.rpow_two, Real.rpow_two, Real.rpow_two]
  set x := dLv L1 L2 / Slv L1 L2 with hx
  set y := dCv a1 b1 a2 b2 / Scv a1 b1 a2 b2 with hy
  set z := dHv a1 b1 a2 b2 / Shv a1 b1 a2 b2 with hz
  set t := RTv a1 b1 a2 b2 with htdef
  obtain ⟨h1, h2⟩ := abs_le.mp (RTv_abs_le a1 b1 a2 b2)
  nlinarith [sq_nonneg x,
    mul_nonneg (by linarith : (0 : ℝ) ≤ 2 + t) (sq_nonneg (y + z)),
    mul_nonneg (by linarith : (0 : ℝ) ≤ 2 - t) (sq_nonneg (y - z))]

/-! ### The perceptual matcher compares truncated distances (C9) -/

